import Mathlib

/-
Verification of the demogif action-execution engine.

This file gives a shallow embedding, in Lean 4, of the core of the
v0xg/demogif repository (the action executor of
internal/executor/executor.go, the cursor-overlay compositor of
internal/overlay/cursor.go, and the agentic control loop of
cmd/demogif/main.go), together with theorems settling the spec's
testable properties against that embedding.

Modelling conventions:
- Go float64 arithmetic is modelled by exact rationals (ℚ); the float→int
  conversion `int(x)` is modelled by truncation toward zero (`qtrunc`).
- Go machine integers are modelled by ℤ / ℕ; none of the quantities
  involved (frame counts, pixel coordinates, indices) can approach 2^63
  for the inputs considered, so no wrap-around modelling is needed.
  Go integer division (truncation toward zero) is Int.tdiv.
- The browser session is an oracle (`Browser`): a call counter is threaded
  through every selector resolution and every screenshot, so each call
  site may independently succeed or fail, exactly like the live session.
  Browser effects with no observable result in the core (mouse moves,
  clicks, scrolls, sleeps, navigations) are no-ops of the model.
- Fallible Go code returning `error` is modelled with `Except String`.
-/

namespace Demogif

/-- Go `int(x)` applied to a float64: truncation toward zero, over ℚ. -/
def qtrunc (q : ℚ) : Int := if q < 0 then ⌈q⌉ else ⌊q⌋

/-- `Action` (executor package). The struct in the repository carries the
fields below; the `checkpoint` flag (JSON field "checkpoint") is the field
read by `ExecuteBatch` (executor.go) and set by the planner. -/
structure Action where
  type : String
  selector : String
  text : String
  x : Int
  y : Int
  url : String
  duration : Int
  checkpoint : Bool
deriving Repr, DecidableEq

/-- `CursorState` (executor package): CursorDefault | CursorPointer | CursorText. -/
inductive CursorState where
  | CursorDefault
  | CursorPointer
  | CursorText
deriving Repr, DecidableEq

/-- `CursorPosition` (executor package). -/
structure CursorPosition where
  x : Int
  y : Int
  state : CursorState
  click : Bool
deriving Repr, DecidableEq

/-- The Go zero value of `CursorPosition`. -/
def zeroCursor : CursorPosition := ⟨0, 0, .CursorDefault, false⟩

instance : Inhabited CursorPosition := ⟨zeroCursor⟩

/-- `Options` (executor package). `Verbose` only controls console logging. -/
structure Options where
  fps : Nat
  baseDelay : Int
  verbose : Bool
deriving Repr, DecidableEq

/-- `FrameData` (executor.go): one captured frame paired with the cursor
state at capture time. `img` is an `Option` because Go's `image.Image` is
a nillable interface and two call sites append a possibly-nil image. -/
structure FrameData (F : Type) where
  img : Option F
  cursor : CursorPosition
deriving Repr, DecidableEq

/-- `ExecuteResult` (executor.go). -/
structure ExecuteResult (F : Type) where
  frames : List (Option F)
  cursorPositions : List CursorPosition
  lastCursor : CursorPosition
  hitCheckpoint : Bool
  checkpointIndex : Int
deriving Repr, DecidableEq

/-- The browser-session oracle. `resolve k sel` models the pair
`page.Element(sel)` + `getElementCenter(el)` at call time `k` (either an
element-center rectangle or an error); `shots k` models the k-th
`captureFrame` (screenshot + PNG decode), which yields an image or fails.
A single call counter is threaded through all executor calls so that
every call site can behave independently, like the live stateful page. -/
structure Browser (F : Type) where
  resolve : Nat → String → Except String (Int × Int)
  shots : Nat → Option F

/-- `easeInOutQuad` (executor.go): 2t² below 0.5, else 1 − (−2t+2)²/2. -/
def easeInOutQuad (t : ℚ) : ℚ :=
  if t < 1/2 then 2 * t * t
  else 1 - (-2*t + 2) * (-2*t + 2) / 2

/-- `captureWaitFrames` (executor.go): `waitMs / frameIntervalMs` frames,
clamped to [1, 60]; each capture may fail and is then silently skipped. -/
def captureWaitFrames {F : Type} (br : Browser F) (k : Nat)
    (cursor : CursorPosition) (waitMs : Int) (frameIntervalMs : Int) :
    List (FrameData F) × Nat :=
  let numFrames := waitMs.tdiv frameIntervalMs
  let numFrames := if numFrames < 1 then 1 else numFrames
  let numFrames := if numFrames > 60 then 60 else numFrames
  (List.range numFrames.toNat).foldl (fun acc _ =>
    match br.shots acc.2 with
    | none => (acc.1, acc.2 + 1)
    | some f => (acc.1 ++ [⟨some f, cursor⟩], acc.2 + 1)) ([], k)

/-- Movement-frame count of `executeClickAnimated`:
`movementFrames := opts.FPS / 2; if movementFrames < 5 { movementFrames = 5 }`. -/
def movementFramesClick (opts : Options) : Nat :=
  let m := opts.fps / 2
  if m < 5 then 5 else m

/-- Movement-frame count of `executeTypeAnimated` (same clamp as click). -/
def movementFramesType (opts : Options) : Nat :=
  let m := opts.fps / 2
  if m < 5 then 5 else m

/-- Movement-frame count of `executeHoverAnimated`:
`movementFrames := opts.FPS / 2` — the hover path has NO minimum clamp. -/
def movementFramesHover (opts : Options) : Nat :=
  opts.fps / 2

/-- `executeClickAnimated` (executor.go): resolve the element, animate the
cursor over `movementFrames+1` interpolation steps with ease-in-out, click,
then capture a burst of `max(FPS/3, 3)` frames with the click flag set. -/
def executeClickAnimated {F : Type} (br : Browser F) (k : Nat) (action : Action)
    (currentCursor : CursorPosition) (opts : Options) :
    Except String (List (FrameData F) × CursorPosition) × Nat :=
  match br.resolve k action.selector with
  | .error e => (.error e, k + 1)
  | .ok (x, y) =>
    let k := k + 1
    let movementFrames := movementFramesClick opts
    let fk := (List.range (movementFrames + 1)).foldl (fun acc i =>
      let t : ℚ := (i : ℚ) / (movementFrames : ℚ)
      let t := easeInOutQuad t
      let interpX := qtrunc ((currentCursor.x : ℚ) + t * ((x : ℚ) - (currentCursor.x : ℚ)))
      let interpY := qtrunc ((currentCursor.y : ℚ) + t * ((y : ℚ) - (currentCursor.y : ℚ)))
      match br.shots acc.2 with
      | none => (acc.1, acc.2 + 1)
      | some f => (acc.1 ++ [⟨some f, ⟨interpX, interpY, .CursorPointer, false⟩⟩], acc.2 + 1))
      (([] : List (FrameData F)), k)
    let clickFrames := opts.fps / 3
    let clickFrames := if clickFrames < 3 then 3 else clickFrames
    let fk := (List.range clickFrames).foldl (fun acc _ =>
      match br.shots acc.2 with
      | none => (acc.1, acc.2 + 1)
      | some f => (acc.1 ++ [⟨some f, ⟨x, y, .CursorPointer, true⟩⟩], acc.2 + 1)) fk
    (.ok (fk.1, ⟨x, y, .CursorPointer, false⟩), fk.2)

/-- `executeTypeAnimated` (executor.go): movement phase with state Text,
focus + select-all, one unconditionally appended (possibly nil) frame,
character-by-character typing with a frame every other byte offset (and at
the last byte offset), then a hold of FPS/4 frames. -/
def executeTypeAnimated {F : Type} (br : Browser F) (k : Nat) (action : Action)
    (currentCursor : CursorPosition) (opts : Options) :
    Except String (List (FrameData F) × CursorPosition) × Nat :=
  match br.resolve k action.selector with
  | .error e => (.error e, k + 1)
  | .ok (x, y) =>
    let k := k + 1
    let movementFrames := movementFramesType opts
    let fk := (List.range (movementFrames + 1)).foldl (fun acc i =>
      let t : ℚ := (i : ℚ) / (movementFrames : ℚ)
      let t := easeInOutQuad t
      let interpX := qtrunc ((currentCursor.x : ℚ) + t * ((x : ℚ) - (currentCursor.x : ℚ)))
      let interpY := qtrunc ((currentCursor.y : ℚ) + t * ((y : ℚ) - (currentCursor.y : ℚ)))
      match br.shots acc.2 with
      | none => (acc.1, acc.2 + 1)
      | some f => (acc.1 ++ [⟨some f, ⟨interpX, interpY, .CursorText, false⟩⟩], acc.2 + 1))
      (([] : List (FrameData F)), k)
    -- el.MustClick(); el.MustSelectAllText(): no observable result in the model.
    -- `frame, _ := captureFrame(page)`: the error is discarded and the frame
    -- (nil on failure) is appended unconditionally.
    let fk := (fk.1 ++ [⟨br.shots fk.2, ⟨x, y, .CursorText, false⟩⟩], fk.2 + 1)
    -- `for i, char := range text` ranges over the byte offsets of the UTF-8
    -- encoding; `len(text)` is the byte length.
    let byteLen := action.text.utf8ByteSize
    let frameEvery := 2
    let tstate := action.text.data.foldl
      (fun (acc : (List (FrameData F) × Nat) × Nat) c =>
        let fk := acc.1
        let i := acc.2
        let fk :=
          if i % frameEvery == 0 || i == byteLen - 1 then
            match br.shots fk.2 with
            | none => (fk.1, fk.2 + 1)
            | some f => (fk.1 ++ [⟨some f, ⟨x, y, .CursorText, false⟩⟩], fk.2 + 1)
          else fk
        (fk, i + c.utf8Size)) (fk, 0)
    let fk := tstate.1
    let fk := (List.range (opts.fps / 4)).foldl (fun acc _ =>
      match br.shots acc.2 with
      | none => (acc.1, acc.2 + 1)
      | some f => (acc.1 ++ [⟨some f, ⟨x, y, .CursorText, false⟩⟩], acc.2 + 1)) fk
    (.ok (fk.1, ⟨x, y, .CursorText, false⟩), fk.2)

/-- `executeScrollAnimated` (executor.go): 10 scroll increments, one capture
per increment, cursor unchanged. The per-increment scroll deltas only drive
`Mouse.MustScroll`, which has no observable result in the model. -/
def executeScrollAnimated {F : Type} (br : Browser F) (k : Nat) (action : Action)
    (currentCursor : CursorPosition) :
    Except String (List (FrameData F) × CursorPosition) × Nat :=
  let _ := action.x
  let scrollSteps := 10
  let fk := (List.range scrollSteps).foldl (fun acc _ =>
    match br.shots acc.2 with
    | none => (acc.1, acc.2 + 1)
    | some f => (acc.1 ++ [⟨some f, currentCursor⟩], acc.2 + 1))
    (([] : List (FrameData F)), k)
  (.ok (fk.1, currentCursor), fk.2)

/-- `executeHoverAnimated` (executor.go): movement phase over
`FPS/2 + 1` steps (no minimum clamp, unlike click/type), hover, then a hold
of FPS/4 frames at the target with state Pointer. -/
def executeHoverAnimated {F : Type} (br : Browser F) (k : Nat) (action : Action)
    (currentCursor : CursorPosition) (opts : Options) :
    Except String (List (FrameData F) × CursorPosition) × Nat :=
  match br.resolve k action.selector with
  | .error e => (.error e, k + 1)
  | .ok (x, y) =>
    let k := k + 1
    let movementFrames := movementFramesHover opts
    let fk := (List.range (movementFrames + 1)).foldl (fun acc i =>
      let t : ℚ := (i : ℚ) / (movementFrames : ℚ)
      let t := easeInOutQuad t
      let interpX := qtrunc ((currentCursor.x : ℚ) + t * ((x : ℚ) - (currentCursor.x : ℚ)))
      let interpY := qtrunc ((currentCursor.y : ℚ) + t * ((y : ℚ) - (currentCursor.y : ℚ)))
      match br.shots acc.2 with
      | none => (acc.1, acc.2 + 1)
      | some f => (acc.1 ++ [⟨some f, ⟨interpX, interpY, .CursorPointer, false⟩⟩], acc.2 + 1))
      (([] : List (FrameData F)), k)
    let fk := (List.range (opts.fps / 4)).foldl (fun acc _ =>
      match br.shots acc.2 with
      | none => (acc.1, acc.2 + 1)
      | some f => (acc.1 ++ [⟨some f, ⟨x, y, .CursorPointer, false⟩⟩], acc.2 + 1)) fk
    (.ok (fk.1, ⟨x, y, .CursorPointer, false⟩), fk.2)

/-- `executeActionAnimated` (executor.go): dispatch on the action's type
tag; unknown tags are an error. -/
def executeActionAnimated {F : Type} (br : Browser F) (k : Nat) (action : Action)
    (currentCursor : CursorPosition) (opts : Options) (frameIntervalMs : Int) :
    Except String (List (FrameData F) × CursorPosition) × Nat :=
  match action.type with
  | "click" => executeClickAnimated br k action currentCursor opts
  | "type" => executeTypeAnimated br k action currentCursor opts
  | "scroll" => executeScrollAnimated br k action currentCursor
  | "hover" => executeHoverAnimated br k action currentCursor opts
  | "wait" =>
    let fk := captureWaitFrames br k currentCursor action.duration frameIntervalMs
    (.ok (fk.1, currentCursor), fk.2)
  | "navigate" =>
    -- page.MustNavigate / page.MustWaitLoad: no observable result in the
    -- model; then `frame, _ := captureFrame(page)` — error discarded, frame
    -- (nil on failure) appended.
    (.ok ([⟨br.shots k, currentCursor⟩], currentCursor), k + 1)
  | t => (.error ("unknown action type: " ++ t), k)

/-- Executor loop state of `ExecuteBatch`: accumulated frame data, current
cursor, browser call counter, and the index of the next action. -/
structure BatchState (F : Type) where
  frameData : List (FrameData F)
  cursor : CursorPosition
  k : Nat
  i : Nat

/-- The action loop of `ExecuteBatch` (executor.go lines 57–96): execute
each action in order; a per-action error is skipped (`continue`) with no
frames and no post-wait; on success append the action's frames and the
post-action wait frames; if the action was checkpoint-flagged, stop at once
and report its index. Returns the final state and the checkpoint index hit
(if any). -/
def batchLoop {F : Type} (br : Browser F) (opts : Options) (frameIntervalMs : Int) :
    List Action → BatchState F → BatchState F × Option Nat
  | [], st => (st, none)
  | action :: rest, st =>
    match executeActionAnimated br st.k action st.cursor opts frameIntervalMs with
    | (.error _, k2) =>
      batchLoop br opts frameIntervalMs rest { st with k := k2, i := st.i + 1 }
    | (.ok (newFrames, newCursor), k2) =>
      let frameData := st.frameData ++ newFrames
      let waitTime := if action.duration == 0 then opts.baseDelay else action.duration
      let wk := captureWaitFrames br k2 newCursor waitTime frameIntervalMs
      let st2 : BatchState F := ⟨frameData ++ wk.1, newCursor, wk.2, st.i + 1⟩
      if action.checkpoint then (st2, some st.i)
      else batchLoop br opts frameIntervalMs rest st2

/-- `ExecuteBatch` (executor.go): run actions until a checkpoint is hit or
all actions complete; always returns a nil error. The extra `Nat` in and
out is the browser call counter of the model. -/
def ExecuteBatch {F : Type} (br : Browser F) (k : Nat) (actions : List Action)
    (opts : Options) (startCursor : Option CursorPosition) :
    Except String (ExecuteResult F) × Nat :=
  -- frameInterval := time.Duration(1000/opts.FPS) * time.Millisecond
  let frameIntervalMs : Int := ((1000 / opts.fps : Nat) : Int)
  let currentCursor := startCursor.getD ⟨640, 360, .CursorDefault, false⟩
  let lp := batchLoop br opts frameIntervalMs actions ⟨[], currentCursor, k, 0⟩
  let st := lp.1
  let result : ExecuteResult F :=
    { frames := st.frameData.map (·.img)
      cursorPositions := st.frameData.map (·.cursor)
      lastCursor := st.cursor
      hitCheckpoint := lp.2.isSome
      checkpointIndex := match lp.2 with | none => -1 | some i => (i : Int) }
  (.ok result, st.k)

/-- First index of a checkpoint-flagged action in a list, if any. -/
def firstCheckpointIndex : List Action → Option Nat
  | [] => none
  | a :: rest =>
    if a.checkpoint then some 0 else (firstCheckpointIndex rest).map (· + 1)

/-! ## Cursor overlay compositor (internal/overlay/cursor.go) -/

/-- `easeInOut` (cursor.go): 2t² below 0.5, else 1 − (−2t+2)²/2
(`math.Pow(-2*t+2, 2)` is the square). -/
def easeInOut (t : ℚ) : ℚ :=
  if t < 1/2 then 2 * t * t
  else 1 - (-2*t + 2) * (-2*t + 2) / 2

/-- The waypoint index that `interpolatePositions` assigns to frame `i`
out of `frameCount`, with `m` waypoints:
`posIdx := int(float64(i)/float64(frameCount)*float64(m))`, clamped to
`m-1` when it is ≥ `m`. -/
def interpPosIdx (m frameCount i : Nat) : Int :=
  let posIdx := qtrunc ((i : ℚ) / (frameCount : ℚ) * (m : ℚ))
  if posIdx ≥ (m : Int) then (m : Int) - 1 else posIdx

/-- The body of the per-frame loop of `interpolatePositions` (cursor.go
lines 43–69) for frame `i`. Go indexes `positions[posIdx]` directly; the
index is provably in range (0 ≤ posIdx < len), so `getD` with the zero
cursor is faithful. -/
def interpFrame (positions : List CursorPosition) (frameCount i : Nat) :
    CursorPosition :=
  let posIdx := interpPosIdx positions.length frameCount i
  let currentPos := positions.getD posIdx.toNat zeroCursor
  if posIdx < (positions.length : Int) - 1 then
    let nextPos := positions.getD (posIdx.toNat + 1) zeroCursor
    let progress := (i : ℚ) / (frameCount : ℚ) * (positions.length : ℚ) - (posIdx : ℚ)
    let progress := easeInOut progress
    { x := qtrunc ((currentPos.x : ℚ) + progress * ((nextPos.x : ℚ) - (currentPos.x : ℚ)))
      y := qtrunc ((currentPos.y : ℚ) + progress * ((nextPos.y : ℚ) - (currentPos.y : ℚ)))
      state := currentPos.state
      click := currentPos.click }
  else currentPos

/-- `interpolatePositions` (cursor.go): map each of `frameCount` frames to
a (fractional) waypoint index and interpolate between the bracketing
waypoints with ease-in-out; an empty waypoint list yields zero-value
cursor samples. -/
def interpolatePositions (positions : List CursorPosition) (frameCount : Nat) :
    List CursorPosition :=
  if positions.length = 0 then List.replicate frameCount zeroCursor
  else (List.range frameCount).map (interpFrame positions frameCount)

/-- An RGBA color with 8-bit channels (image/color RGBA). -/
structure RGBAColor where
  r : Nat
  g : Nat
  b : Nat
  a : Nat
deriving Repr, DecidableEq

/-- The Go zero value of `color.RGBA` (what `image.NewRGBA` fills with). -/
def zeroRGBA : RGBAColor := ⟨0, 0, 0, 0⟩

/-- A raster image: half-open pixel bounds `[xmin, xmax) × [ymin, ymax)`
(Go `image.Rectangle`) and a pixel function. -/
structure RGBAImage where
  xmin : Int
  ymin : Int
  xmax : Int
  ymax : Int
  pix : Int → Int → RGBAColor

/-- Whether `(x, y)` is inside the image bounds. -/
def inBounds (img : RGBAImage) (x y : Int) : Prop :=
  img.xmin ≤ x ∧ x < img.xmax ∧ img.ymin ≤ y ∧ y < img.ymax

instance (img : RGBAImage) (x y : Int) : Decidable (inBounds img x y) := by
  unfold inBounds; infer_instance

/-- `setPixelSafe` (cursor.go): write the pixel only when inside the
image bounds; out-of-bounds writes are silently discarded. -/
def setPixelSafe (img : RGBAImage) (x y : Int) (c : RGBAColor) : RGBAImage :=
  if inBounds img x y then
    { img with pix := fun a b => if a = x ∧ b = y then c else img.pix a b }
  else img

/-- `isInsideCursor` (cursor.go): interior-containment test of the arrow
glyph. `dy*12/16` is Go integer division (dy is nonnegative there). -/
def isInsideCursor (dx dy : Int) : Bool :=
  if dy < 0 ∨ dy > 16 then false
  else if dx < 0 then false
  else if dy ≤ 11 then decide (dx ≤ (dy * 12).tdiv 16 ∧ dx ≥ 0)
  else if dy ≤ 16 ∧ dx ≥ 0 ∧ dx ≤ 4 then true
  else false

/-- One iteration of the Bresenham walk of `drawLine` (cursor.go): plot
the current point, stop at the endpoint, otherwise advance `x1` and/or
`y1` by the fixed signs according to the error term. `fuel` bounds the
number of iterations; `drawLine` supplies `dxa + dya + 1`, which is shown
sufficient in `bresenhamLoop_fuel` below (the walk reaches the endpoint
before the fuel runs out, so the model never takes the out-of-fuel
branch for the states `drawLine` builds). -/
def bresenhamLoop (x2 y2 dxa dya sx sy : Int) (c : RGBAColor) :
    Nat → RGBAImage → Int → Int → Int → RGBAImage
  | 0, img, _, _, _ => img
  | fuel + 1, img, x1, y1, err =>
    let img := setPixelSafe img x1 y1 c
    if x1 = x2 ∧ y1 = y2 then img
    else
      let e2 := 2 * err
      let err2 := if e2 > -dya then err - dya else err
      let x12 := if e2 > -dya then x1 + sx else x1
      let err3 := if e2 < dxa then err2 + dxa else err2
      let y12 := if e2 < dxa then y1 + sy else y1
      bresenhamLoop x2 y2 dxa dya sx sy c fuel img x12 y12 err3

/-- `drawLine` (cursor.go): Bresenham line from `(x1, y1)` to `(x2, y2)`;
every plot goes through `setPixelSafe`. -/
def drawLine (img : RGBAImage) (x1 y1 x2 y2 : Int) (c : RGBAColor) : RGBAImage :=
  let dxa := |x2 - x1|
  let dya := |y2 - y1|
  let sx : Int := if x1 > x2 then -1 else 1
  let sy : Int := if y1 > y2 then -1 else 1
  let err := dxa - dya
  bresenhamLoop x2 y2 dxa dya sx sy c (dxa + dya + 1).toNat img x1 y1 err

/-- The vertex list of the cursor glyph (cursor.go `cursorPoints`). -/
def cursorPoints : List (Int × Int) :=
  [(0, 0), (0, 16), (4, 12), (7, 18), (10, 17), (7, 11), (12, 11)]

/-- Inner (dx) iteration of the glyph fill of `drawCursor` (cursor.go):
an interior point is painted with the fill color via `setPixelSafe`. -/
def fillStep (x y : Int) (fillColor : RGBAColor) (dy : Nat)
    (img : RGBAImage) (dx : Nat) : RGBAImage :=
  if isInsideCursor (Int.ofNat dx) (Int.ofNat dy) then
    setPixelSafe img (x + Int.ofNat dx) (y + Int.ofNat dy) fillColor
  else img

/-- Outer (dy) iteration of the glyph fill of `drawCursor`: one row of the
13-pixel-wide bounding box. -/
def fillRow (x y : Int) (fillColor : RGBAColor) (img : RGBAImage) (dy : Nat) :
    RGBAImage :=
  (List.range 13).foldl (fillStep x y fillColor dy) img

/-- One outline segment of `drawCursor`: a Bresenham line from vertex `i`
to vertex `i+1` (wrapping around the vertex list). -/
def outlineStep (x y : Int) (cursorColor : RGBAColor) (img : RGBAImage)
    (i : Nat) : RGBAImage :=
  let p1 := cursorPoints.getD i (0, 0)
  let p2 := cursorPoints.getD ((i + 1) % cursorPoints.length) (0, 0)
  drawLine img (x + p1.1) (y + p1.2) (x + p2.1) (y + p2.2) cursorColor

/-- `drawCursor` (cursor.go): fill the glyph interior white over the
18×13 bounding box, then connect consecutive vertices (wrapping around)
with black Bresenham lines. -/
def drawCursor (img : RGBAImage) (x y : Int) (state : CursorState) : RGBAImage :=
  let _ := state  -- state is positional metadata only; the glyph is fixed
  let cursorColor : RGBAColor := ⟨0, 0, 0, 255⟩
  let fillColor : RGBAColor := ⟨255, 255, 255, 255⟩
  let img := (List.range 18).foldl (fillRow x y fillColor) img
  (List.range cursorPoints.length).foldl (outlineStep x y cursorColor) img

/-- Oracle for `math.Cos`/`math.Sin` of `angle·π/180` with `angle` in
degrees: transcendental float calls cannot be shallowly embedded exactly,
so the trigonometric values are abstract rationals. The bounds-safety
claims hold for every oracle. -/
structure Trig where
  cosDeg : ℚ → ℚ
  sinDeg : ℚ → ℚ

/-- One one-degree step of `drawClickRipple` (cursor.go): three
semi-transparent pixels at the circle point, each via `setPixelSafe`. -/
def rippleStep (trig : Trig) (x y : Int) (rippleColor : RGBAColor)
    (radius : Int) (img : RGBAImage) (angle : Nat) : RGBAImage :=
  let px := x + qtrunc ((radius : ℚ) * trig.cosDeg (angle : ℚ))
  let py := y + qtrunc ((radius : ℚ) * trig.sinDeg (angle : ℚ))
  let img := setPixelSafe img px py rippleColor
  let img := setPixelSafe img (px + 1) py rippleColor
  setPixelSafe img px (py + 1) rippleColor

/-- `drawClickRipple` (cursor.go): 360 one-degree steps around a circle of
radius 15. -/
def drawClickRipple (trig : Trig) (img : RGBAImage) (x y : Int) : RGBAImage :=
  let rippleColor : RGBAColor := ⟨66, 133, 244, 100⟩
  let radius : Int := 15
  (List.range 360).foldl (rippleStep trig x y rippleColor radius) img

/-- `image.NewRGBA(bounds)` followed by `draw.Draw(result, bounds, frame,
bounds.Min, draw.Src)`: a fresh image with the same bounds whose in-bounds
pixels copy the source and whose out-of-bounds pixels are the zero RGBA. -/
def copyRGBA (frame : RGBAImage) : RGBAImage :=
  { frame with pix := fun x y => if inBounds frame x y then frame.pix x y else zeroRGBA }

/-- `drawCursorOnFrame` (cursor.go): copy the frame; if the cursor sample
is the (0,0) sentinel, draw nothing; otherwise draw the click ripple (when
flagged) and then the cursor glyph. -/
def drawCursorOnFrame (trig : Trig) (frame : RGBAImage) (pos : CursorPosition) :
    RGBAImage :=
  let result := copyRGBA frame
  if pos.x = 0 ∧ pos.y = 0 then result
  else
    let result := if pos.click then drawClickRipple trig result pos.x pos.y else result
    drawCursor result pos.x pos.y pos.state

/-- `ApplyCursor` (cursor.go): interpolate the cursor samples across the
frames and burn the cursor into each frame; an empty sample list returns
the frames untouched. -/
def ApplyCursor (trig : Trig) (frames : List RGBAImage)
    (positions : List CursorPosition) : Except String (List RGBAImage) :=
  if positions.length = 0 then .ok frames
  else
    let interpolated := interpolatePositions positions frames.length
    .ok ((List.range frames.length).map (fun i =>
      drawCursorOnFrame trig (frames.getD i (copyRGBA ⟨0, 0, 0, 0, fun _ _ => zeroRGBA⟩))
        (interpolated.getD i zeroCursor)))

/-! ## Agentic control loop (cmd/demogif/main.go, `run`) -/

/-- One iteration of the `captureHoldFrames` loop (main.go): screenshot +
decode; a failure skips both the frame and its cursor sample
(`continue`). -/
def holdStep {F : Type} (br : Browser F) (defaultCursor : CursorPosition)
    (acc : List (Option F) × List CursorPosition × Nat) (_ : Nat) :
    List (Option F) × List CursorPosition × Nat :=
  match br.shots acc.2.2 with
  | none => (acc.1, acc.2.1, acc.2.2 + 1)
  | some f => (acc.1 ++ [some f], acc.2.1 ++ [defaultCursor], acc.2.2 + 1)

/-- `captureHoldFrames` (main.go): one second's worth (`targetFPS`) of
frames at a fixed cursor (the last cursor, or the 640×360 default).
Returns the frames, the cursor samples and the advanced call counter. -/
def captureHoldFrames {F : Type} (br : Browser F) (k : Nat) (targetFPS : Nat)
    (cursor : Option CursorPosition) :
    List (Option F) × List CursorPosition × Nat :=
  let numFrames := targetFPS
  let defaultCursor := cursor.getD ⟨640, 360, .CursorDefault, false⟩
  (List.range numFrames).foldl (holdStep br defaultCursor) ([], [], k)

/-- The environment of the control loop: the browser oracle plus the two
external collaborators consulted after a checkpoint, indexed by the round
number. `reCrawl` models `browser.ReCrawl()` (a page descriptor of
abstract type `P`, or a fatal error); `continueActions` models
`aiProvider.ContinueActions(pageMap, prompt, completedSummary)` — Go
renders the completed-action log to a text summary via
`formatCompletedActions` before the call, so the oracle receives the log
itself. -/
structure RunEnv (F P : Type) where
  br : Browser F
  reCrawl : Nat → Except String P
  continueActions : Nat → P → List Action → Except String (List Action)

/-- `maxIterations := 20` (main.go): the hard bound on planning rounds. -/
def maxIterations : Nat := 20

/-- The state the loop of `run` carries out of its final round:
accumulated frames and cursor samples, the final iteration count, the
last cursor, and the advanced call counter. -/
structure LoopOut (F : Type) where
  frames : List (Option F)
  cursors : List CursorPosition
  iteration : Nat
  lastCursor : Option CursorPosition
  k : Nat

/-- The agentic loop of `run` (main.go lines 130–178):
`for len(actions) > 0 && iteration < maxIterations`, each round executing
one batch, appending its frames/cursor samples, extending the
completed-action log (only the executed prefix when a checkpoint truncated
the batch), and on checkpoint re-crawling and asking the planner to
continue; without a checkpoint the action list is cleared and the loop
exits. -/
def runLoop {F P : Type} (env : RunEnv F P) (opts : Options) (actions : List Action)
    (iteration k : Nat) (allFrames : List (Option F)) (allCursors : List CursorPosition)
    (completed : List Action) (lastCursor : Option CursorPosition) :
    Except String (LoopOut F) :=
    if actions.length > 0 ∧ iteration < maxIterations then
      let iteration2 := iteration + 1
      match ExecuteBatch env.br k actions opts lastCursor with
      | (.error e, _) => .error ("execution failed: " ++ e)
      | (.ok result, k2) =>
        let allFrames := allFrames ++ result.frames
        let allCursors := allCursors ++ result.cursorPositions
        let lastCursor := some result.lastCursor
        let completed :=
          if result.hitCheckpoint then
            completed ++ actions.take (result.checkpointIndex.toNat + 1)
          else completed ++ actions
        if result.hitCheckpoint then
          match env.reCrawl iteration2 with
          | .error e => .error ("re-crawl failed: " ++ e)
          | .ok pageMap =>
            match env.continueActions iteration2 pageMap completed with
            | .error e => .error ("continue generation failed: " ++ e)
            | .ok actions2 =>
              runLoop env opts actions2 iteration2 k2 allFrames allCursors
                completed lastCursor
        else
          runLoop env opts [] iteration2 k2 allFrames allCursors
            completed lastCursor
    else
      .ok ⟨allFrames, allCursors, iteration, lastCursor, k⟩
termination_by maxIterations - iteration
decreasing_by all_goals simp_all [maxIterations]; omega

/-- The recording pipeline of `run` (main.go): initial hold frames, the
agentic loop, the max-iteration warning check, and the final hold frames.
`warned` records whether "⚠ Max iterations reached" was printed. -/
structure RunOut (F : Type) where
  frames : List (Option F)
  cursors : List CursorPosition
  iterations : Nat
  warned : Bool

/-- `run` (main.go), restricted to the recording pipeline (steps 3 of the
CLI): capture one second of initial hold frames, run the agentic loop from
iteration 0, surface the iteration-bound warning, and capture one second
of final hold frames. Crawling, planning of the initial actions, overlay
and GIF encoding happen before/after and are consumed/produced through the
environment. -/
def runModel {F P : Type} (env : RunEnv F P) (actions0 : List Action)
    (opts : Options) : Except String (RunOut F) :=
  let ini := captureHoldFrames env.br 0 opts.fps none
  match runLoop env opts actions0 0 ini.2.2 ini.1 ini.2.1 [] none with
  | .error e => .error e
  | .ok out =>
    let warned := decide (out.iteration ≥ maxIterations)
    let fin := captureHoldFrames env.br out.k opts.fps out.lastCursor
    .ok ⟨out.frames ++ fin.1, out.cursors ++ fin.2.1, out.iteration, warned⟩

/-- Whether a batch run reported a checkpoint hit. -/
def batchHit {F : Type} (p : Except String (ExecuteResult F) × Nat) : Bool :=
  match p.1 with
  | .ok r => r.hitCheckpoint
  | .error _ => false

/-- The checkpoint index a batch run reported (none on a batch error). -/
def batchIdx {F : Type} (p : Except String (ExecuteResult F) × Nat) : Option Int :=
  match p.1 with
  | .ok r => some r.checkpointIndex
  | .error _ => none

/-! ## Helper lemmas about the executor loop -/

/-- If the first checkpoint-flagged action sits at index `j` and the
execution of that action cannot fail, the batch loop stops exactly there:
it reports checkpoint index `st.i + j` and behaves exactly as if it had
been handed only the first `j+1` actions. -/
theorem batchLoop_first_checkpoint {F : Type} (br : Browser F) (opts : Options)
    (fi : Int) :
    ∀ (actions : List Action) (j : Nat) (st : BatchState F),
      firstCheckpointIndex actions = some j →
      (∀ a, actions[j]? = some a → ∀ k cur,
        ((executeActionAnimated br k a cur opts fi).1).isOk = true) →
      (batchLoop br opts fi actions st).2 = some (st.i + j) ∧
      batchLoop br opts fi actions st = batchLoop br opts fi (actions.take (j + 1)) st
  | [], j, st, hfirst, _ => by simp [firstCheckpointIndex] at hfirst
  | a :: rest, j, st, hfirst, hsucc => by
    by_cases hcp : a.checkpoint
    · have hj : j = 0 := by
        simp [firstCheckpointIndex, hcp] at hfirst
        omega
      subst hj
      have hs := hsucc a (by simp) st.k st.cursor
      rcases hEA : executeActionAnimated br st.k a st.cursor opts fi with ⟨res, k2⟩
      cases res with
      | error err => rw [hEA] at hs; simp [Except.isOk, Except.toBool] at hs
      | ok p =>
        obtain ⟨newFrames, newCursor⟩ := p
        simp only [batchLoop, hEA, hcp, List.take_succ_cons, List.take_zero,
          if_true, Nat.add_zero]
        exact ⟨trivial, trivial⟩
    · have hcp' : a.checkpoint = false := by simpa using hcp
      rcases hrest : firstCheckpointIndex rest with _ | j'
      · simp [firstCheckpointIndex, hcp', hrest] at hfirst
      · have hj : j = j' + 1 := by
          simp [firstCheckpointIndex, hcp', hrest] at hfirst
          omega
        subst hj
        have hsucc' : ∀ a', rest[j']? = some a' → ∀ k cur,
            ((executeActionAnimated br k a' cur opts fi).1).isOk = true := by
          intro a' h
          exact hsucc a' (by simpa using h)
        rcases hEA : executeActionAnimated br st.k a st.cursor opts fi with ⟨res, k2⟩
        cases res with
        | error err =>
          have ih := batchLoop_first_checkpoint br opts fi rest j'
            { st with k := k2, i := st.i + 1 } hrest hsucc'
          simp only [batchLoop, hEA, List.take_succ_cons]
          refine ⟨?_, ih.2⟩
          rw [ih.1]
          exact congrArg some (by show st.i + 1 + j' = st.i + (j' + 1); omega)
        | ok p =>
          obtain ⟨newFrames, newCursor⟩ := p
          have ih := batchLoop_first_checkpoint br opts fi rest j'
            ⟨st.frameData ++ newFrames ++
              (captureWaitFrames br k2 newCursor
                (if a.duration == 0 then opts.baseDelay else a.duration) fi).1,
              newCursor,
              (captureWaitFrames br k2 newCursor
                (if a.duration == 0 then opts.baseDelay else a.duration) fi).2,
              st.i + 1⟩ hrest hsucc'
          simp only [batchLoop, hEA, hcp', List.take_succ_cons, if_false,
            Bool.false_eq_true]
          refine ⟨?_, ih.2⟩
          rw [ih.1]
          exact congrArg some (by show st.i + 1 + j' = st.i + (j' + 1); omega)

/-- Sequencing: a checkpoint-free prefix is run to completion and the loop
continues with the rest from the state the prefix produced; a
checkpoint-free list never reports a hit. -/
theorem batchLoop_append_noCheckpoint {F : Type} (br : Browser F) (opts : Options)
    (fi : Int) :
    ∀ (l1 l2 : List Action) (st : BatchState F),
      (∀ a ∈ l1, a.checkpoint = false) →
      batchLoop br opts fi (l1 ++ l2) st =
        batchLoop br opts fi l2 (batchLoop br opts fi l1 st).1 ∧
      (batchLoop br opts fi l1 st).2 = none
  | [], l2, st, _ => by simp [batchLoop]
  | a :: l1, l2, st, h => by
    have hcp : a.checkpoint = false := h a (by simp)
    have h' : ∀ a ∈ l1, a.checkpoint = false := fun a ha => h a (by simp [ha])
    rcases hEA : executeActionAnimated br st.k a st.cursor opts fi with ⟨res, k2⟩
    cases res with
    | error err =>
      have ih := batchLoop_append_noCheckpoint br opts fi l1 l2
        { st with k := k2, i := st.i + 1 } h'
      simp only [List.cons_append, batchLoop, hEA]
      exact ih
    | ok p =>
      obtain ⟨newFrames, newCursor⟩ := p
      have ih := batchLoop_append_noCheckpoint br opts fi l1 l2
        ⟨st.frameData ++ newFrames ++
          (captureWaitFrames br k2 newCursor
            (if a.duration == 0 then opts.baseDelay else a.duration) fi).1,
          newCursor,
          (captureWaitFrames br k2 newCursor
            (if a.duration == 0 then opts.baseDelay else a.duration) fi).2,
          st.i + 1⟩ h'
      simp only [List.cons_append, batchLoop, hEA, hcp, if_false,
        Bool.false_eq_true]
      exact ih

/-- `ExecuteBatch` structurally returns a nil error: its only return is
`(result, nil)`. -/
theorem exec_ok {F : Type} (br : Browser F) (k : Nat) (actions : List Action)
    (opts : Options) (sc : Option CursorPosition) :
    ∃ r k2, ExecuteBatch br k actions opts sc = (.ok r, k2) :=
  ⟨_, _, rfl⟩

/-- The frame and cursor-sample lists of an `ExecuteResult` are projections
of the same `frameData` list, so they always have equal length. -/
theorem exec_len {F : Type} (br : Browser F) (k : Nat) (actions : List Action)
    (opts : Options) (sc : Option CursorPosition) (r : ExecuteResult F) (k2 : Nat)
    (h : ExecuteBatch br k actions opts sc = (.ok r, k2)) :
    r.frames.length = r.cursorPositions.length := by
  have h1 : (ExecuteBatch br k actions opts sc).1 = .ok r := by rw [h]
  simp only [ExecuteBatch, Except.ok.injEq] at h1
  subst h1
  simp

/-- C10: `ExecuteBatch` always returns a nil error — a per-action failure
(unresolved selector, unknown type tag) is consumed by the loop, which
skips the action (no frames, no post-wait, cursor unchanged) and continues
with the next one; no per-action failure surfaces in the returned error. -/
theorem c10_always_nil_error {F : Type} (br : Browser F) :
    (∀ k actions opts sc, ∃ r k2,
      ExecuteBatch br k actions opts sc = (.ok r, k2)) ∧
    (∀ opts fi action rest st e k2,
      executeActionAnimated br st.k action st.cursor opts fi = (.error e, k2) →
      batchLoop br opts fi (action :: rest) st =
        batchLoop br opts fi rest { st with k := k2, i := st.i + 1 }) := by
  refine ⟨fun k actions opts sc => ⟨_, _, rfl⟩, ?_⟩
  intro opts fi action rest st e k2 h
  simp only [batchLoop, h]

/-- C10 witness: a batch holding only an unknown-type action still returns
a nil error, and the loop steps over the failing action. -/
theorem c10_witness :
    (∃ r k2, ExecuteBatch (F := Unit) ⟨fun _ _ => .ok (1, 1), fun _ => some ()⟩ 0
      [⟨"bogus", "", "", 0, 0, "", 0, false⟩] ⟨20, 800, false⟩ none = (.ok r, k2)) ∧
    batchLoop (F := Unit) ⟨fun _ _ => .ok (1, 1), fun _ => some ()⟩ ⟨20, 800, false⟩ 50
      [⟨"bogus", "", "", 0, 0, "", 0, false⟩] ⟨[], zeroCursor, 0, 0⟩ =
    batchLoop (F := Unit) ⟨fun _ _ => .ok (1, 1), fun _ => some ()⟩ ⟨20, 800, false⟩ 50
      [] ⟨[], zeroCursor, 0, 1⟩ :=
  ⟨(c10_always_nil_error _).1 0 _ _ none,
    (c10_always_nil_error _).2 ⟨20, 800, false⟩ 50 ⟨"bogus", "", "", 0, 0, "", 0, false⟩
      [] ⟨[], zeroCursor, 0, 0⟩ "unknown action type: bogus" 0 rfl⟩

/-- C5: a batch with no checkpoint-flagged action reports
`hitCheckpoint = false` and `checkpointIndex = -1`, and processes every
action of the list in its given order: for every split of the list, the
loop runs the prefix to completion and continues with the suffix from
exactly the state the prefix produced (failed actions are attempted and
skipped, per the non-fatal selector policy). -/
theorem c5_no_checkpoint {F : Type} (br : Browser F) (k0 : Nat)
    (actions : List Action) (opts : Options) (sc : Option CursorPosition)
    (h : ∀ a ∈ actions, a.checkpoint = false) :
    batchHit (ExecuteBatch br k0 actions opts sc) = false ∧
    batchIdx (ExecuteBatch br k0 actions opts sc) = some (-1) ∧
    (∀ l1 l2, actions = l1 ++ l2 →
      batchLoop br opts ((1000 / opts.fps : Nat) : Int) actions
        ⟨[], sc.getD ⟨640, 360, .CursorDefault, false⟩, k0, 0⟩ =
      batchLoop br opts ((1000 / opts.fps : Nat) : Int) l2
        (batchLoop br opts ((1000 / opts.fps : Nat) : Int) l1
          ⟨[], sc.getD ⟨640, 360, .CursorDefault, false⟩, k0, 0⟩).1) := by
  have hnone := (batchLoop_append_noCheckpoint br opts ((1000 / opts.fps : Nat) : Int)
    actions [] ⟨[], sc.getD ⟨640, 360, .CursorDefault, false⟩, k0, 0⟩ h).2
  refine ⟨?_, ?_, ?_⟩
  · simp only [batchHit, ExecuteBatch, hnone]
    rfl
  · simp only [batchIdx, ExecuteBatch, hnone]
  · intro l1 l2 heq
    subst heq
    exact (batchLoop_append_noCheckpoint br opts ((1000 / opts.fps : Nat) : Int)
      l1 l2 ⟨[], sc.getD ⟨640, 360, .CursorDefault, false⟩, k0, 0⟩
      (fun a ha => h a (List.mem_append.mpr (Or.inl ha)))).1

/-- C5 witness: a two-action checkpoint-free batch at a concrete browser. -/
theorem c5_witness :
    batchHit (ExecuteBatch (F := Unit) ⟨fun _ _ => .ok (100, 200), fun _ => some ()⟩ 0
      [⟨"wait", "", "", 0, 0, "", 500, false⟩, ⟨"scroll", "", "", 0, 300, "", 0, false⟩]
      ⟨20, 800, false⟩ none) = false ∧
    batchIdx (ExecuteBatch (F := Unit) ⟨fun _ _ => .ok (100, 200), fun _ => some ()⟩ 0
      [⟨"wait", "", "", 0, 0, "", 500, false⟩, ⟨"scroll", "", "", 0, 300, "", 0, false⟩]
      ⟨20, 800, false⟩ none) = some (-1) := by
  have h := c5_no_checkpoint (F := Unit) ⟨fun _ _ => .ok (100, 200), fun _ => some ()⟩ 0
    [⟨"wait", "", "", 0, 0, "", 500, false⟩, ⟨"scroll", "", "", 0, 300, "", 0, false⟩]
    ⟨20, 800, false⟩ none (by intro a ha; fin_cases ha <;> rfl)
  exact ⟨h.1, h.2.1⟩

/-- C1 counterexample: a single-action batch whose only action is
checkpoint-flagged, but whose selector does not resolve. The claim demands
`hitCheckpoint = true` and `checkpointIndex = 0`; the code skips the
failed action — including its checkpoint flag — and returns
`hitCheckpoint = false`, `checkpointIndex = -1`. -/
theorem c1_counterexample :
    firstCheckpointIndex [⟨"click", "#btn", "", 0, 0, "", 0, true⟩] = some 0 ∧
    batchHit (ExecuteBatch (F := Unit)
      ⟨fun _ _ => .error "element not found: #btn", fun _ => some ()⟩ 0
      [⟨"click", "#btn", "", 0, 0, "", 0, true⟩] ⟨20, 800, false⟩ none) = false ∧
    batchIdx (ExecuteBatch (F := Unit)
      ⟨fun _ _ => .error "element not found: #btn", fun _ => some ()⟩ 0
      [⟨"click", "#btn", "", 0, 0, "", 0, true⟩] ⟨20, 800, false⟩ none) = some (-1) :=
  ⟨rfl, rfl, rfl⟩

/-- C1 (amended): if action `j` is the first checkpoint-flagged action of
the batch AND the execution of that action itself does not fail, then
`ExecuteBatch` reports `hitCheckpoint = true` with `checkpointIndex = j`,
and its entire output (frames, cursor samples, last cursor) is identical
to running only actions `0..j`: no action after `j` is executed. -/
theorem c1_checkpoint_truncates {F : Type} (br : Browser F) (k0 : Nat)
    (actions : List Action) (opts : Options) (sc : Option CursorPosition) (j : Nat)
    (hfirst : firstCheckpointIndex actions = some j)
    (hsucc : ∀ a, actions[j]? = some a → ∀ k cur,
      ((executeActionAnimated br k a cur opts ((1000 / opts.fps : Nat) : Int)).1).isOk = true) :
    batchHit (ExecuteBatch br k0 actions opts sc) = true ∧
    batchIdx (ExecuteBatch br k0 actions opts sc) = some (j : Int) ∧
    ExecuteBatch br k0 actions opts sc =
      ExecuteBatch br k0 (actions.take (j + 1)) opts sc := by
  have h := batchLoop_first_checkpoint br opts ((1000 / opts.fps : Nat) : Int) actions j
    ⟨[], sc.getD ⟨640, 360, .CursorDefault, false⟩, k0, 0⟩ hfirst hsucc
  refine ⟨?_, ?_, ?_⟩
  · simp only [batchHit, ExecuteBatch, h.1]
    rfl
  · simp only [batchIdx, ExecuteBatch, h.1, Nat.zero_add]
  · simp only [ExecuteBatch]
    rw [h.2]

/-- C1 witness: a checkpoint-flagged wait action at index 0 that cannot
fail; the batch stops there with index 0. -/
theorem c1_witness :
    batchHit (ExecuteBatch (F := Unit) ⟨fun _ _ => .ok (100, 200), fun _ => some ()⟩ 0
      [⟨"wait", "", "", 0, 0, "", 500, true⟩] ⟨20, 800, false⟩ none) = true ∧
    batchIdx (ExecuteBatch (F := Unit) ⟨fun _ _ => .ok (100, 200), fun _ => some ()⟩ 0
      [⟨"wait", "", "", 0, 0, "", 500, true⟩] ⟨20, 800, false⟩ none) = some ((0 : Nat) : Int) := by
  have h := c1_checkpoint_truncates (F := Unit)
    ⟨fun _ _ => .ok (100, 200), fun _ => some ()⟩ 0
    [⟨"wait", "", "", 0, 0, "", 500, true⟩] ⟨20, 800, false⟩ none 0 rfl
    (by
      intro a ha k cur
      simp only [List.getElem?_cons_zero] at ha
      injection ha with h2
      subst h2
      rfl)
  exact ⟨h.1, h.2.1⟩

/-- Invariant carried through the agentic loop: equal-length frame/cursor
accumulators stay equal-length, the exit iteration count never exceeds
`max iteration maxIterations`, and the frames accumulated on entry are a
prefix of the frames on exit (no rollback, ever). -/
theorem runLoop_inv {F P : Type} (env : RunEnv F P) (opts : Options) :
    ∀ (n : Nat) (actions : List Action) (iteration k : Nat)
      (fr : List (Option F)) (cs : List CursorPosition)
      (comp : List Action) (lc : Option CursorPosition) (out : LoopOut F),
      maxIterations - iteration ≤ n →
      runLoop env opts actions iteration k fr cs comp lc = .ok out →
      (fr.length = cs.length → out.frames.length = out.cursors.length) ∧
      out.iteration ≤ max iteration maxIterations ∧
      fr <+: out.frames := by
  intro n
  induction n with
  | zero =>
    intro actions iteration k fr cs comp lc out hn h
    rw [runLoop.eq_def] at h
    rw [if_neg (by omega : ¬(actions.length > 0 ∧ iteration < maxIterations))] at h
    injection h with h
    subst h
    exact ⟨fun hl => hl, le_max_left _ _, List.prefix_refl _⟩
  | succ m ih =>
    intro actions iteration k fr cs comp lc out hn h
    rw [runLoop.eq_def] at h
    by_cases hcond : actions.length > 0 ∧ iteration < maxIterations
    · rw [if_pos hcond] at h
      split at h
      next e snd heq => exact absurd h (by simp)
      next result k2 hEB =>
        have hlen := exec_len env.br k actions opts lc result k2 hEB
        by_cases hhit : result.hitCheckpoint = true
        · simp only [if_pos hhit] at h
          split at h
          next e heq => exact absurd h (by simp)
          next pm heq =>
            split at h
            next e2 heq2 => exact absurd h (by simp)
            next acts2 heq2 =>
              obtain ⟨H1, H2, H3⟩ := ih acts2 (iteration + 1) k2 _ _ _ _ out
                (by omega) h
              refine ⟨fun hl => H1 (by simp [hl, hlen]), by omega, ?_⟩
              exact (List.prefix_append fr result.frames).trans H3
        · simp only [if_neg hhit] at h
          obtain ⟨H1, H2, H3⟩ := ih [] (iteration + 1) k2 _ _ _ _ out (by omega) h
          refine ⟨fun hl => H1 (by simp [hl, hlen]), by omega, ?_⟩
          exact (List.prefix_append fr result.frames).trans H3
    · rw [if_neg hcond] at h
      injection h with h
      subst h
      exact ⟨fun hl => hl, le_max_left _ _, List.prefix_refl _⟩

/-- If the planner always continues with the same nonempty list and every
batch over that list (and over the current one) hits a checkpoint, the
loop keeps re-planning until the iteration bound and exits reporting
exactly `maxIterations` rounds. -/
theorem runLoop_allCheckpoint {F P : Type} (env : RunEnv F P) (opts : Options)
    (contL : List Action)
    (hcont : ∀ n pm comp, env.continueActions n pm comp = .ok contL)
    (hcontNe : contL ≠ [])
    (hre : ∀ n, (env.reCrawl n).isOk = true)
    (hhitC : ∀ k lc, batchHit (ExecuteBatch env.br k contL opts lc) = true) :
    ∀ (n iteration : Nat), maxIterations - iteration = n → iteration ≤ maxIterations →
    ∀ (acts : List Action) (k : Nat) (fr : List (Option F))
      (cs : List CursorPosition) (comp : List Action) (lc : Option CursorPosition),
      acts ≠ [] →
      (∀ k2 lc2, batchHit (ExecuteBatch env.br k2 acts opts lc2) = true) →
      ∃ out, runLoop env opts acts iteration k fr cs comp lc = .ok out ∧
        out.iteration = maxIterations := by
  intro n
  induction n with
  | zero =>
    intro iteration hn hle acts k fr cs comp lc hne hhit
    have hit : iteration = maxIterations := by omega
    subst hit
    rw [runLoop.eq_def]
    rw [if_neg (by omega : ¬(acts.length > 0 ∧ maxIterations < maxIterations))]
    exact ⟨_, rfl, rfl⟩
  | succ m ih =>
    intro iteration hn hle acts k fr cs comp lc hne hhit
    have hlt : iteration < maxIterations := by omega
    have hlen : acts.length > 0 := List.length_pos.mpr hne
    rcases exec_ok env.br k acts opts lc with ⟨r, k2, hEB⟩
    have hhit2 := hhit k lc
    rw [hEB] at hhit2
    have hr : r.hitCheckpoint = true := by simpa [batchHit] using hhit2
    have hstep : runLoop env opts acts iteration k fr cs comp lc =
        runLoop env opts contL (iteration + 1) k2 (fr ++ r.frames)
          (cs ++ r.cursorPositions)
          (comp ++ List.take (r.checkpointIndex.toNat + 1) acts)
          (some r.lastCursor) := by
      rw [runLoop.eq_def, if_pos ⟨hlen, hlt⟩]
      split
      next e snd heq =>
        rw [hEB] at heq
        simp at heq
      next result k2b heq =>
        rw [hEB] at heq
        simp only [Prod.mk.injEq, Except.ok.injEq] at heq
        obtain ⟨h1, h2⟩ := heq
        subst h1
        subst h2
        simp only [if_pos hr]
        split
        next e heq2 =>
          have hrc := hre (iteration + 1)
          rw [heq2] at hrc
          simp [Except.isOk, Except.toBool] at hrc
        next pm heq2 =>
          split
          next e2 heq3 =>
            rw [hcont (iteration + 1) pm _] at heq3
            exact absurd heq3 (by simp)
          next acts2 heq3 =>
            rw [hcont (iteration + 1) pm _] at heq3
            injection heq3 with heq3
            subst heq3
            rfl
    obtain ⟨out, hout, hit⟩ := ih (iteration + 1) (by omega) (by omega) contL k2
      (fr ++ r.frames) (cs ++ r.cursorPositions)
      (comp ++ List.take (r.checkpointIndex.toNat + 1) acts)
      (some r.lastCursor) hcontNe hhitC
    exact ⟨out, by rw [hstep]; exact hout, hit⟩

/-- One hold-frame iteration preserves equal frame/cursor list lengths. -/
theorem holdStep_len {F : Type} (br : Browser F) (dc : CursorPosition)
    (acc : List (Option F) × List CursorPosition × Nat) (a : Nat)
    (h : acc.1.length = acc.2.1.length) :
    (holdStep br dc acc a).1.length = (holdStep br dc acc a).2.1.length := by
  unfold holdStep
  cases br.shots acc.2.2 <;> simp [h]

/-- The hold-frame fold preserves equal frame/cursor list lengths. -/
theorem holdFold_len {F : Type} (br : Browser F) (dc : CursorPosition) :
    ∀ (l : List Nat) (acc : List (Option F) × List CursorPosition × Nat),
      acc.1.length = acc.2.1.length →
      (List.foldl (holdStep br dc) acc l).1.length =
        (List.foldl (holdStep br dc) acc l).2.1.length
  | [], _, h => h
  | a :: l, acc, h => by
    simp only [List.foldl_cons]
    exact holdFold_len br dc l (holdStep br dc acc a) (holdStep_len br dc acc a h)

/-- `captureHoldFrames` produces exactly one cursor sample per frame. -/
theorem captureHoldFrames_len {F : Type} (br : Browser F) (k targetFPS : Nat)
    (cursor : Option CursorPosition) :
    (captureHoldFrames br k targetFPS cursor).1.length =
      (captureHoldFrames br k targetFPS cursor).2.1.length := by
  simp only [captureHoldFrames]
  exact holdFold_len br _ _ _ rfl

/-- C2: (i) any successful run of the recording pipeline reports at most
`maxIterations` (20) batch rounds; (ii) the loop never rolls frames back —
whatever is accumulated on entry to any round is a prefix of the frames it
exits with; (iii) if every continuation returns the same nonempty action
list, re-crawls succeed, and every batch (initial or continuation) hits a
checkpoint, the run still completes successfully (`.ok`), stops after
exactly 20 rounds, and surfaces the max-iterations warning. -/
theorem c2_iteration_bound :
    (∀ (F P : Type) (env : RunEnv F P) (actions0 : List Action) (opts : Options)
      (out : RunOut F), runModel env actions0 opts = .ok out →
      out.iterations ≤ maxIterations) ∧
    (∀ (F P : Type) (env : RunEnv F P) (opts : Options) (actions : List Action)
      (iteration k : Nat) (fr : List (Option F)) (cs : List CursorPosition)
      (comp : List Action) (lc : Option CursorPosition) (out : LoopOut F),
      runLoop env opts actions iteration k fr cs comp lc = .ok out →
      fr <+: out.frames) ∧
    (∀ (F P : Type) (env : RunEnv F P) (opts : Options) (actions0 contL : List Action),
      actions0 ≠ [] →
      (∀ n pm comp, env.continueActions n pm comp = .ok contL) →
      contL ≠ [] →
      (∀ n, (env.reCrawl n).isOk = true) →
      (∀ k lc, batchHit (ExecuteBatch env.br k actions0 opts lc) = true) →
      (∀ k lc, batchHit (ExecuteBatch env.br k contL opts lc) = true) →
      ∃ out, runModel env actions0 opts = .ok out ∧
        out.iterations = maxIterations ∧ out.warned = true) := by
  refine ⟨?_, ?_, ?_⟩
  · intro F P env actions0 opts out h
    simp only [runModel] at h
    split at h
    next e heq => simp at h
    next lout heq =>
      injection h with h
      subst h
      have hb := (runLoop_inv env opts maxIterations actions0 0 _ _ _ _ _ lout
        (Nat.sub_le _ _) heq).2.1
      simpa using hb
  · intro F P env opts actions iteration k fr cs comp lc out h
    exact (runLoop_inv env opts maxIterations actions iteration k fr cs comp lc out
      (Nat.sub_le _ _) h).2.2
  · intro F P env opts actions0 contL hne hcont hcontNe hre hhit0 hhitC
    obtain ⟨lout, hL, hIt⟩ := runLoop_allCheckpoint env opts contL hcont hcontNe hre
      hhitC maxIterations 0 rfl (Nat.zero_le _) actions0
      (captureHoldFrames env.br 0 opts.fps none).2.2
      (captureHoldFrames env.br 0 opts.fps none).1
      (captureHoldFrames env.br 0 opts.fps none).2.1
      [] none hne hhit0
    refine ⟨⟨lout.frames ++ (captureHoldFrames env.br lout.k opts.fps lout.lastCursor).1,
      lout.cursors ++ (captureHoldFrames env.br lout.k opts.fps lout.lastCursor).2.1,
      lout.iteration, decide (lout.iteration ≥ maxIterations)⟩, ?_, hIt, ?_⟩
    · simp only [runModel]
      split
      next e heq => rw [hL] at heq; simp at heq
      next lout2 heq =>
        rw [hL] at heq
        injection heq with heq
        subst heq
        rfl
    · rw [hIt]
      rfl

/-- C2 witness: a continuation that always returns one checkpoint-flagged
wait action; the run completes with 20 rounds and the warning. -/
theorem c2_witness :
    ∃ out, runModel (F := Unit) (P := Unit)
      ⟨⟨fun _ _ => .ok (100, 200), fun _ => some ()⟩, fun _ => .ok (),
        fun _ _ _ => .ok [⟨"wait", "", "", 0, 0, "", 500, true⟩]⟩
      [⟨"wait", "", "", 0, 0, "", 500, true⟩] ⟨20, 800, false⟩ = .ok out ∧
      out.iterations = maxIterations ∧ out.warned = true :=
  c2_iteration_bound.2.2 Unit Unit
    ⟨⟨fun _ _ => .ok (100, 200), fun _ => some ()⟩, fun _ => .ok (),
      fun _ _ _ => .ok [⟨"wait", "", "", 0, 0, "", 500, true⟩]⟩
    ⟨20, 800, false⟩
    [⟨"wait", "", "", 0, 0, "", 500, true⟩] [⟨"wait", "", "", 0, 0, "", 500, true⟩]
    (by simp) (fun _ _ _ => rfl) (by simp) (fun _ => rfl)
    (fun _ _ => rfl) (fun _ _ => rfl)

/-- C9: frames and cursor samples stay in one-to-one correspondence:
`ExecuteBatch` returns `Frames` and `CursorPositions` of equal length, and
the control loop's accumulated sequences (initial hold + all rounds +
final hold) have equal length when handed to the compositor. -/
theorem c9_one_sample_per_frame :
    (∀ (F : Type) (br : Browser F) (k : Nat) (actions : List Action) (opts : Options)
      (sc : Option CursorPosition) (r : ExecuteResult F) (k2 : Nat),
      ExecuteBatch br k actions opts sc = (.ok r, k2) →
      r.frames.length = r.cursorPositions.length) ∧
    (∀ (F P : Type) (env : RunEnv F P) (actions0 : List Action) (opts : Options)
      (out : RunOut F), runModel env actions0 opts = .ok out →
      out.frames.length = out.cursors.length) := by
  refine ⟨fun F br k actions opts sc r k2 h => exec_len br k actions opts sc r k2 h, ?_⟩
  intro F P env actions0 opts out h
  simp only [runModel] at h
  split at h
  next e heq => simp at h
  next lout heq =>
    injection h with h
    subst h
    have h1 := captureHoldFrames_len env.br 0 opts.fps none
    have h2 := (runLoop_inv env opts maxIterations actions0 0 _ _ _ _ _ lout
      (Nat.sub_le _ _) heq).1 h1
    have h3 := captureHoldFrames_len env.br lout.k opts.fps lout.lastCursor
    simp [h2, h3]

/-- C9 witness: a concrete empty run — two hold seconds at 2 fps, four
frames and four cursor samples. -/
theorem c9_witness :
    ∃ out, runModel (F := Unit) (P := Unit)
      ⟨⟨fun _ _ => .ok (100, 200), fun _ => some ()⟩, fun _ => .ok (),
        fun _ _ _ => .ok []⟩ [] ⟨2, 800, false⟩ = .ok out ∧
      out.frames.length = out.cursors.length := by
  have hrun : runModel (F := Unit) (P := Unit)
      ⟨⟨fun _ _ => .ok (100, 200), fun _ => some ()⟩, fun _ => .ok (),
        fun _ _ _ => .ok []⟩ [] ⟨2, 800, false⟩ = .ok
      ⟨[some (), some (), some (), some ()],
        [⟨640, 360, .CursorDefault, false⟩, ⟨640, 360, .CursorDefault, false⟩,
         ⟨640, 360, .CursorDefault, false⟩, ⟨640, 360, .CursorDefault, false⟩],
        0, false⟩ := by
    simp only [runModel]
    rw [runLoop.eq_def]
    rfl
  exact ⟨_, hrun, c9_one_sample_per_frame.2 Unit Unit _ _ _ _ hrun⟩

/-! ## Interpolation lemmas -/

/-- For a nonnegative rational, Go's float→int truncation is the floor. -/
theorem qtrunc_of_nonneg (q : ℚ) (h : 0 ≤ q) : qtrunc q = ⌊q⌋ := by
  rw [qtrunc, if_neg (not_lt.mpr h)]

/-- The waypoint index of the final frame is the final waypoint. -/
theorem interpPosIdx_last (M N : Nat) (h1 : 1 ≤ M) (h2 : M ≤ N) :
    interpPosIdx M N (N - 1) = (M : Int) - 1 := by
  have hN : 1 ≤ N := le_trans h1 h2
  have hNQ : (0 : ℚ) < (N : ℚ) := by exact_mod_cast hN
  have hMQ : (1 : ℚ) ≤ (M : ℚ) := by exact_mod_cast h1
  have hMN : (M : ℚ) ≤ (N : ℚ) := by exact_mod_cast h2
  have hcast : ((N - 1 : Nat) : ℚ) = (N : ℚ) - 1 := by
    rw [Nat.cast_sub hN]; simp
  have h0 : (0 : ℚ) ≤ ((N - 1 : Nat) : ℚ) / (N : ℚ) * (M : ℚ) := by positivity
  have hfloor : ⌊((N - 1 : Nat) : ℚ) / (N : ℚ) * (M : ℚ)⌋ = (M : Int) - 1 := by
    rw [Int.floor_eq_iff]
    constructor
    · push_cast
      rw [hcast, div_mul_eq_mul_div, le_div_iff₀ hNQ]
      nlinarith
    · push_cast
      rw [hcast, div_mul_eq_mul_div, div_lt_iff₀ hNQ]
      nlinarith
  rw [interpPosIdx]
  simp only [qtrunc_of_nonneg _ h0, hfloor]
  rw [if_neg (by omega)]

/-- C3: for `N` frames and `M` waypoints with `1 ≤ M ≤ N`, the
interpolated cursor sequence has length exactly `N` and its last element
is the last waypoint, verbatim. -/
theorem c3_interp_length_last (positions : List CursorPosition) (N : Nat)
    (h1 : 1 ≤ positions.length) (h2 : positions.length ≤ N) :
    (interpolatePositions positions N).length = N ∧
    (interpolatePositions positions N).getLast? = positions.getLast? := by
  have hN : 1 ≤ N := le_trans h1 h2
  have hMne : ¬(positions.length = 0) := by omega
  constructor
  · rw [interpolatePositions, if_neg hMne]
    simp
  · rw [interpolatePositions, if_neg hMne]
    have hkey : interpFrame positions N (N - 1) =
        positions.getD (positions.length - 1) zeroCursor := by
      have hidx := interpPosIdx_last positions.length N h1 h2
      rw [interpFrame]
      simp only [hidx]
      rw [if_neg (lt_irrefl _)]
      have htn : ((positions.length : Int) - 1).toNat = positions.length - 1 := by
        omega
      rw [htn]
    rw [List.getLast?_eq_getElem?, List.getLast?_eq_getElem?]
    simp only [List.length_map, List.length_range]
    rw [List.getElem?_map, List.getElem?_range (by omega : N - 1 < N)]
    simp only [Option.map_some']
    rw [hkey, List.getD_eq_getElem _ _ (by omega : positions.length - 1 < positions.length),
      List.getElem?_eq_getElem (by omega : positions.length - 1 < positions.length)]

/-- The ease-in-out curve maps `[0, 1)` into `[0, 1]`. -/
theorem easeInOut_mem (t : ℚ) (h0 : 0 ≤ t) (h1 : t < 1) :
    0 ≤ easeInOut t ∧ easeInOut t ≤ 1 := by
  rw [easeInOut]
  split
  next h =>
    constructor
    · positivity
    · nlinarith
  next h =>
    push_neg at h
    constructor
    · nlinarith
    · nlinarith [sq_nonneg (-2 * t + 2)]

/-- Linear interpolation with a coefficient in `[0, 1]` stays between the
endpoints. -/
theorem interp_between (a b : Int) (e : ℚ) (h0 : 0 ≤ e) (h1 : e ≤ 1) :
    ((min a b : Int) : ℚ) ≤ (a : ℚ) + e * ((b : ℚ) - (a : ℚ)) ∧
    (a : ℚ) + e * ((b : ℚ) - (a : ℚ)) ≤ ((max a b : Int) : ℚ) := by
  rcases le_total a b with hab | hab
  · have habQ : (a : ℚ) ≤ (b : ℚ) := by exact_mod_cast hab
    rw [min_eq_left hab, max_eq_right hab]
    constructor <;> nlinarith
  · have habQ : (b : ℚ) ≤ (a : ℚ) := by exact_mod_cast hab
    rw [min_eq_right hab, max_eq_left hab]
    constructor <;> nlinarith

/-- Truncation of a rational lying between two integers stays between
those integers. -/
theorem qtrunc_between (lo hi : Int) (q : ℚ) (h1 : (lo : ℚ) ≤ q)
    (h2 : q ≤ (hi : ℚ)) : lo ≤ qtrunc q ∧ qtrunc q ≤ hi := by
  rw [qtrunc]
  split
  next h =>
    refine ⟨?_, Int.ceil_le.mpr h2⟩
    have := Int.ceil_mono h1
    simpa using this
  next h =>
    refine ⟨Int.le_floor.mpr h1, ?_⟩
    have := Int.floor_mono h2
    simpa using this

/-- C4: whenever the compositor brackets frame `i` between consecutive
waypoints `j` and `j+1`, the interpolated cursor position lies within the
axis-aligned bounding box of those two waypoints, on both axes. -/
theorem c4_interp_in_bbox (positions : List CursorPosition) (N i : Nat) (j : Int)
    (hi : i < N)
    (hj : interpPosIdx positions.length N i = j)
    (hbr : j < (positions.length : Int) - 1) :
    (min (positions.getD j.toNat zeroCursor).x (positions.getD (j.toNat + 1) zeroCursor).x
        ≤ ((interpolatePositions positions N).getD i zeroCursor).x ∧
      ((interpolatePositions positions N).getD i zeroCursor).x
        ≤ max (positions.getD j.toNat zeroCursor).x (positions.getD (j.toNat + 1) zeroCursor).x) ∧
    (min (positions.getD j.toNat zeroCursor).y (positions.getD (j.toNat + 1) zeroCursor).y
        ≤ ((interpolatePositions positions N).getD i zeroCursor).y ∧
      ((interpolatePositions positions N).getD i zeroCursor).y
        ≤ max (positions.getD j.toNat zeroCursor).y (positions.getD (j.toNat + 1) zeroCursor).y) := by
  have hNpos : 0 < N := by omega
  have hNQ : (0 : ℚ) < (N : ℚ) := by exact_mod_cast hNpos
  have hq0 : (0 : ℚ) ≤ (i : ℚ) / (N : ℚ) * (positions.length : ℚ) := by positivity
  have hjfloor : j = ⌊(i : ℚ) / (N : ℚ) * (positions.length : ℚ)⌋ := by
    rw [interpPosIdx] at hj
    simp only [qtrunc_of_nonneg _ hq0] at hj
    by_cases hcl : ⌊(i : ℚ) / (N : ℚ) * (positions.length : ℚ)⌋ ≥ (positions.length : Int)
    · rw [if_pos hcl] at hj
      omega
    · rw [if_neg hcl] at hj
      omega
  have hj0 : 0 ≤ j := by
    rw [hjfloor]
    exact Int.floor_nonneg.mpr hq0
  have hM2 : 2 ≤ positions.length := by omega
  have hMne : ¬(positions.length = 0) := by omega
  have hfi : (interpolatePositions positions N).getD i zeroCursor =
      interpFrame positions N i := by
    rw [interpolatePositions, if_neg hMne,
      List.getD_eq_getElem _ _ (by simpa using hi)]
    simp
  have hprog0 : (0 : ℚ) ≤ (i : ℚ) / (N : ℚ) * (positions.length : ℚ) - (j : ℚ) := by
    rw [hjfloor]
    have := Int.floor_le ((i : ℚ) / (N : ℚ) * (positions.length : ℚ))
    linarith
  have hprog1 : (i : ℚ) / (N : ℚ) * (positions.length : ℚ) - (j : ℚ) < 1 := by
    rw [hjfloor]
    have := Int.lt_floor_add_one ((i : ℚ) / (N : ℚ) * (positions.length : ℚ))
    linarith
  obtain ⟨he0, he1⟩ := easeInOut_mem _ hprog0 hprog1
  rw [hfi, interpFrame]
  simp only [hj]
  rw [if_pos hbr]
  constructor
  · obtain ⟨hlo, hhi⟩ := interp_between (positions.getD j.toNat zeroCursor).x
      (positions.getD (j.toNat + 1) zeroCursor).x _ he0 he1
    have := qtrunc_between _ _ _ hlo hhi
    simpa using this
  · obtain ⟨hlo, hhi⟩ := interp_between (positions.getD j.toNat zeroCursor).y
      (positions.getD (j.toNat + 1) zeroCursor).y _ he0 he1
    have := qtrunc_between _ _ _ hlo hhi
    simpa using this

/-- C3 witness: two waypoints over three frames. -/
theorem c3_witness :
    (interpolatePositions
      [⟨0, 0, .CursorDefault, false⟩, ⟨10, 20, .CursorDefault, false⟩] 3).length = 3 ∧
    (interpolatePositions
      [⟨0, 0, .CursorDefault, false⟩, ⟨10, 20, .CursorDefault, false⟩] 3).getLast? =
    ([⟨0, 0, .CursorDefault, false⟩,
      ⟨10, 20, .CursorDefault, false⟩] : List CursorPosition).getLast? :=
  c3_interp_length_last _ 3 (by decide) (by decide)

/-- C4 witness: frame 1 of 4 bracketed between waypoints 0 and 1. -/
theorem c4_witness :
    (min (([⟨0, 0, .CursorDefault, false⟩, ⟨10, 20, .CursorDefault, false⟩]
          : List CursorPosition).getD 0 zeroCursor).x
        (([⟨0, 0, .CursorDefault, false⟩, ⟨10, 20, .CursorDefault, false⟩]
          : List CursorPosition).getD 1 zeroCursor).x
        ≤ ((interpolatePositions
          [⟨0, 0, .CursorDefault, false⟩, ⟨10, 20, .CursorDefault, false⟩] 4).getD 1
            zeroCursor).x ∧
      ((interpolatePositions
          [⟨0, 0, .CursorDefault, false⟩, ⟨10, 20, .CursorDefault, false⟩] 4).getD 1
            zeroCursor).x
        ≤ max (([⟨0, 0, .CursorDefault, false⟩, ⟨10, 20, .CursorDefault, false⟩]
          : List CursorPosition).getD 0 zeroCursor).x
          (([⟨0, 0, .CursorDefault, false⟩, ⟨10, 20, .CursorDefault, false⟩]
          : List CursorPosition).getD 1 zeroCursor).x) ∧
    (min (([⟨0, 0, .CursorDefault, false⟩, ⟨10, 20, .CursorDefault, false⟩]
          : List CursorPosition).getD 0 zeroCursor).y
        (([⟨0, 0, .CursorDefault, false⟩, ⟨10, 20, .CursorDefault, false⟩]
          : List CursorPosition).getD 1 zeroCursor).y
        ≤ ((interpolatePositions
          [⟨0, 0, .CursorDefault, false⟩, ⟨10, 20, .CursorDefault, false⟩] 4).getD 1
            zeroCursor).y ∧
      ((interpolatePositions
          [⟨0, 0, .CursorDefault, false⟩, ⟨10, 20, .CursorDefault, false⟩] 4).getD 1
            zeroCursor).y
        ≤ max (([⟨0, 0, .CursorDefault, false⟩, ⟨10, 20, .CursorDefault, false⟩]
          : List CursorPosition).getD 0 zeroCursor).y
          (([⟨0, 0, .CursorDefault, false⟩, ⟨10, 20, .CursorDefault, false⟩]
          : List CursorPosition).getD 1 zeroCursor).y) :=
  c4_interp_in_bbox
    [⟨0, 0, .CursorDefault, false⟩, ⟨10, 20, .CursorDefault, false⟩] 4 1 0
    (by decide) (by norm_num [interpPosIdx, qtrunc]) (by decide)

/-- C6 counterexample: the claim asserts at least 5 interpolation steps
for click, type AND hover, regardless of frame rate. The hover path has no
minimum clamp: at 2 fps the movement loop runs `2/2 + 1 = 2` steps, and
even the full hover animation (movement plus hold) yields only 2 cursor
samples under a browser whose captures all succeed. -/
theorem c6_counterexample :
    movementFramesHover ⟨2, 800, false⟩ + 1 < 5 ∧
    ((executeHoverAnimated (F := Unit) ⟨fun _ _ => .ok (100, 200), fun _ => some ()⟩ 0
        ⟨"hover", "#m", "", 0, 0, "", 0, false⟩ zeroCursor ⟨2, 800, false⟩).1).toOption.map
      (fun p => p.1.length) = some 2 :=
  ⟨by decide, rfl⟩

/-- C6 (amended): the movement animation of click and type actions always
uses at least 5 interpolation steps (in fact at least 6: the clamped
`movementFrames ≥ 5` plus the inclusive loop end), regardless of the
configured frame rate; the hover animation uses `FPS/2 + 1` steps, which
is at least 5 only when the frame rate is at least 8. -/
theorem c6_movement_steps :
    (∀ opts : Options, 5 ≤ movementFramesClick opts + 1) ∧
    (∀ opts : Options, 5 ≤ movementFramesType opts + 1) ∧
    (∀ opts : Options, 8 ≤ opts.fps → 5 ≤ movementFramesHover opts + 1) := by
  refine ⟨?_, ?_, ?_⟩
  · intro opts
    rw [movementFramesClick]
    split <;> omega
  · intro opts
    rw [movementFramesType]
    split <;> omega
  · intro opts h
    rw [movementFramesHover]
    omega

/-- C6 witness: at 8 fps all three action kinds reach 5 steps. -/
theorem c6_witness :
    5 ≤ movementFramesClick ⟨8, 800, false⟩ + 1 ∧
    5 ≤ movementFramesType ⟨8, 800, false⟩ + 1 ∧
    5 ≤ movementFramesHover ⟨8, 800, false⟩ + 1 :=
  ⟨c6_movement_steps.1 ⟨8, 800, false⟩, c6_movement_steps.2.1 ⟨8, 800, false⟩,
    c6_movement_steps.2.2 ⟨8, 800, false⟩ (by decide)⟩

/-- C7: a cursor sample at the (0,0) sentinel draws nothing: every
in-bounds pixel of the composited frame equals the input frame's pixel —
no glyph, no ripple — even when the click flag is set. -/
theorem c7_sentinel_draws_nothing (trig : Trig) (frame : RGBAImage)
    (pos : CursorPosition) (x y : Int) (hx : pos.x = 0) (hy : pos.y = 0)
    (hin : inBounds frame x y) :
    (drawCursorOnFrame trig frame pos).pix x y = frame.pix x y := by
  rw [drawCursorOnFrame, if_pos ⟨hx, hy⟩]
  show (if inBounds frame x y then frame.pix x y else zeroRGBA) = frame.pix x y
  rw [if_pos hin]

/-- C7 witness: sentinel sample with the click flag set over a concrete
4×4 frame; the output pixel equals the input pixel. -/
theorem c7_witness :
    (drawCursorOnFrame ⟨fun _ => 0, fun _ => 0⟩
      ⟨0, 0, 4, 4, fun _ _ => ⟨7, 7, 7, 255⟩⟩
      ⟨0, 0, .CursorDefault, true⟩).pix 1 1 =
    (⟨0, 0, 4, 4, fun _ _ => ⟨7, 7, 7, 255⟩⟩ : RGBAImage).pix 1 1 :=
  c7_sentinel_draws_nothing ⟨fun _ => 0, fun _ => 0⟩
    ⟨0, 0, 4, 4, fun _ _ => ⟨7, 7, 7, 255⟩⟩
    ⟨0, 0, .CursorDefault, true⟩ 1 1 rfl rfl (by decide)

/-! ## Bounds-safety of the pixel-drawing operations -/

/-- `i2` arose from `i1` by bounds-clipped writes only: the bounds are
unchanged and every pixel outside them is untouched. -/
def clipsOutside (i1 i2 : RGBAImage) : Prop :=
  i2.xmin = i1.xmin ∧ i2.ymin = i1.ymin ∧ i2.xmax = i1.xmax ∧ i2.ymax = i1.ymax ∧
  ∀ px py, ¬ inBounds i1 px py → i2.pix px py = i1.pix px py

theorem clipsOutside_refl (img : RGBAImage) : clipsOutside img img :=
  ⟨rfl, rfl, rfl, rfl, fun _ _ _ => rfl⟩

theorem clipsOutside_trans {a b c : RGBAImage} (h1 : clipsOutside a b)
    (h2 : clipsOutside b c) : clipsOutside a c := by
  obtain ⟨e1, e2, e3, e4, hp1⟩ := h1
  obtain ⟨f1, f2, f3, f4, hp2⟩ := h2
  refine ⟨f1.trans e1, f2.trans e2, f3.trans e3, f4.trans e4, ?_⟩
  intro px py hout
  have hb : ¬ inBounds b px py := by
    rw [inBounds, e1, e2, e3, e4]
    exact hout
  rw [hp2 px py hb, hp1 px py hout]

theorem clipsOutside_setPixelSafe (img : RGBAImage) (x y : Int) (c : RGBAColor) :
    clipsOutside img (setPixelSafe img x y c) := by
  rw [setPixelSafe]
  split
  next hin =>
    refine ⟨rfl, rfl, rfl, rfl, ?_⟩
    intro px py hout
    show (if px = x ∧ py = y then c else img.pix px py) = img.pix px py
    rw [if_neg]
    rintro ⟨hpx, hpy⟩
    subst hpx
    subst hpy
    exact hout hin
  next _ => exact clipsOutside_refl img

theorem clipsOutside_foldl {α : Type} (step : RGBAImage → α → RGBAImage)
    (hstep : ∀ img a, clipsOutside img (step img a)) :
    ∀ (l : List α) (img : RGBAImage), clipsOutside img (List.foldl step img l)
  | [], img => clipsOutside_refl img
  | a :: l, img =>
    clipsOutside_trans (hstep img a)
      (clipsOutside_foldl step hstep l (step img a))

theorem clipsOutside_bresenhamLoop (x2 y2 dxa dya sx sy : Int) (c : RGBAColor) :
    ∀ (fuel : Nat) (img : RGBAImage) (x1 y1 err : Int),
      clipsOutside img (bresenhamLoop x2 y2 dxa dya sx sy c fuel img x1 y1 err)
  | 0, img, _, _, _ => clipsOutside_refl img
  | fuel + 1, img, x1, y1, err => by
    simp only [bresenhamLoop]
    split
    next _ => exact clipsOutside_setPixelSafe img x1 y1 c
    next _ =>
      exact clipsOutside_trans (clipsOutside_setPixelSafe img x1 y1 c)
        (clipsOutside_bresenhamLoop x2 y2 dxa dya sx sy c fuel _ _ _ _)

theorem clipsOutside_drawLine (img : RGBAImage) (x1 y1 x2 y2 : Int)
    (c : RGBAColor) : clipsOutside img (drawLine img x1 y1 x2 y2 c) := by
  rw [drawLine]
  exact clipsOutside_bresenhamLoop _ _ _ _ _ _ _ _ _ _ _ _

theorem clipsOutside_rippleStep (trig : Trig) (x y : Int) (rc : RGBAColor)
    (radius : Int) (img : RGBAImage) (angle : Nat) :
    clipsOutside img (rippleStep trig x y rc radius img angle) := by
  rw [rippleStep]
  exact clipsOutside_trans (clipsOutside_setPixelSafe img _ _ _)
    (clipsOutside_trans (clipsOutside_setPixelSafe _ _ _ _)
      (clipsOutside_setPixelSafe _ _ _ _))

theorem clipsOutside_drawClickRipple (trig : Trig) (img : RGBAImage) (x y : Int) :
    clipsOutside img (drawClickRipple trig img x y) := by
  rw [drawClickRipple]
  exact clipsOutside_foldl _ (clipsOutside_rippleStep trig x y _ _) _ img

theorem clipsOutside_fillStep (x y : Int) (fc : RGBAColor) (dy : Nat)
    (img : RGBAImage) (dx : Nat) :
    clipsOutside img (fillStep x y fc dy img dx) := by
  rw [fillStep]
  split
  next _ => exact clipsOutside_setPixelSafe img _ _ _
  next _ => exact clipsOutside_refl img

theorem clipsOutside_fillRow (x y : Int) (fc : RGBAColor) (img : RGBAImage)
    (dy : Nat) : clipsOutside img (fillRow x y fc img dy) := by
  rw [fillRow]
  exact clipsOutside_foldl _ (clipsOutside_fillStep x y fc dy) _ img

theorem clipsOutside_outlineStep (x y : Int) (cc : RGBAColor) (img : RGBAImage)
    (i : Nat) : clipsOutside img (outlineStep x y cc img i) := by
  rw [outlineStep]
  exact clipsOutside_drawLine img _ _ _ _ _

theorem clipsOutside_drawCursor (img : RGBAImage) (x y : Int) (st : CursorState) :
    clipsOutside img (drawCursor img x y st) := by
  rw [drawCursor]
  exact clipsOutside_trans
    (clipsOutside_foldl _ (clipsOutside_fillRow x y _) _ img)
    (clipsOutside_foldl _ (clipsOutside_outlineStep x y _) _ _)

/-- C8: every pixel write of the cursor overlay is bounds-checked and
silently clipped: `setPixelSafe`, the Bresenham line walk, the click
ripple and the whole cursor glyph leave every out-of-bounds pixel
untouched, for arbitrary (including negative) drawing coordinates; and a
composited frame's out-of-canvas pixels are exactly the fresh canvas's
zero color, whatever cursor position was drawn. -/
theorem c8_pixel_writes_clipped :
    (∀ (img : RGBAImage) (x y : Int) (c : RGBAColor) (px py : Int),
      ¬ inBounds img px py → (setPixelSafe img x y c).pix px py = img.pix px py) ∧
    (∀ (img : RGBAImage) (x1 y1 x2 y2 : Int) (c : RGBAColor) (px py : Int),
      ¬ inBounds img px py → (drawLine img x1 y1 x2 y2 c).pix px py = img.pix px py) ∧
    (∀ (trig : Trig) (img : RGBAImage) (x y : Int) (px py : Int),
      ¬ inBounds img px py → (drawClickRipple trig img x y).pix px py = img.pix px py) ∧
    (∀ (img : RGBAImage) (x y : Int) (st : CursorState) (px py : Int),
      ¬ inBounds img px py → (drawCursor img x y st).pix px py = img.pix px py) ∧
    (∀ (trig : Trig) (frame : RGBAImage) (pos : CursorPosition) (px py : Int),
      ¬ inBounds frame px py →
      (drawCursorOnFrame trig frame pos).pix px py = zeroRGBA) := by
  refine ⟨?_, ?_, ?_, ?_, ?_⟩
  · intro img x y c px py hout
    exact (clipsOutside_setPixelSafe img x y c).2.2.2.2 px py hout
  · intro img x1 y1 x2 y2 c px py hout
    exact (clipsOutside_drawLine img x1 y1 x2 y2 c).2.2.2.2 px py hout
  · intro trig img x y px py hout
    exact (clipsOutside_drawClickRipple trig img x y).2.2.2.2 px py hout
  · intro img x y st px py hout
    exact (clipsOutside_drawCursor img x y st).2.2.2.2 px py hout
  · intro trig frame pos px py hout
    have hcopy : (copyRGBA frame).pix px py = zeroRGBA := by
      show (if inBounds frame px py then frame.pix px py else zeroRGBA) = zeroRGBA
      rw [if_neg hout]
    have houtc : ¬ inBounds (copyRGBA frame) px py := hout
    rw [drawCursorOnFrame]
    split
    next _ => exact hcopy
    next _ =>
      by_cases hcl : pos.click = true
      · rw [if_pos hcl]
        have h1 := clipsOutside_drawClickRipple trig (copyRGBA frame) pos.x pos.y
        have h2 := clipsOutside_drawCursor (drawClickRipple trig (copyRGBA frame)
          pos.x pos.y) pos.x pos.y pos.state
        have hout2 : ¬ inBounds (drawClickRipple trig (copyRGBA frame) pos.x pos.y)
            px py := by
          rw [inBounds, h1.1, h1.2.1, h1.2.2.1, h1.2.2.2.1]
          exact houtc
        rw [h2.2.2.2.2 px py hout2, h1.2.2.2.2 px py houtc, hcopy]
      · rw [if_neg hcl]
        rw [(clipsOutside_drawCursor (copyRGBA frame) pos.x pos.y
          pos.state).2.2.2.2 px py houtc, hcopy]

/-- C8 witness: a 2×2 canvas; a clipped single write, a line from
negative to out-of-canvas coordinates, a ripple centered off-canvas and a
glyph at a negative position all leave an outside pixel untouched, and the
composited frame's outside pixel is the zero color. -/
theorem c8_witness :
    (setPixelSafe ⟨0, 0, 2, 2, fun _ _ => ⟨1, 2, 3, 255⟩⟩ (-5) (-5)
        ⟨0, 0, 0, 255⟩).pix (-1) (-1) =
      (⟨0, 0, 2, 2, fun _ _ => ⟨1, 2, 3, 255⟩⟩ : RGBAImage).pix (-1) (-1) ∧
    (drawLine ⟨0, 0, 2, 2, fun _ _ => ⟨1, 2, 3, 255⟩⟩ (-5) (-5) 50 50
        ⟨0, 0, 0, 255⟩).pix 3 3 =
      (⟨0, 0, 2, 2, fun _ _ => ⟨1, 2, 3, 255⟩⟩ : RGBAImage).pix 3 3 ∧
    (drawClickRipple ⟨fun _ => 0, fun _ => 0⟩
        ⟨0, 0, 2, 2, fun _ _ => ⟨1, 2, 3, 255⟩⟩ (-7) (-7)).pix 3 3 =
      (⟨0, 0, 2, 2, fun _ _ => ⟨1, 2, 3, 255⟩⟩ : RGBAImage).pix 3 3 ∧
    (drawCursor ⟨0, 0, 2, 2, fun _ _ => ⟨1, 2, 3, 255⟩⟩ (-100) (-100)
        .CursorDefault).pix 3 3 =
      (⟨0, 0, 2, 2, fun _ _ => ⟨1, 2, 3, 255⟩⟩ : RGBAImage).pix 3 3 ∧
    (drawCursorOnFrame ⟨fun _ => 0, fun _ => 0⟩
        ⟨0, 0, 2, 2, fun _ _ => ⟨1, 2, 3, 255⟩⟩
        ⟨-3, -3, .CursorPointer, true⟩).pix 5 5 = zeroRGBA :=
  ⟨c8_pixel_writes_clipped.1 _ (-5) (-5) _ (-1) (-1) (by decide),
    c8_pixel_writes_clipped.2.1 _ (-5) (-5) 50 50 _ 3 3 (by decide),
    c8_pixel_writes_clipped.2.2.1 _ _ (-7) (-7) 3 3 (by decide),
    c8_pixel_writes_clipped.2.2.2.1 _ (-100) (-100) _ 3 3 (by decide),
    c8_pixel_writes_clipped.2.2.2.2 _ _ _ 5 5 (by decide)⟩

/-- Fuel-sufficiency of the Bresenham walk: from any state satisfying the
loop invariant (remaining x/y distances within `[0, dxa] × [0, dya]` and
the error term determined by them), the walk's result does not depend on
the fuel once the fuel exceeds the remaining step count — the walk reaches
its endpoint before the fuel runs out. -/
theorem bresenhamLoop_fuel (x2 y2 dxa dya sx sy : Int) (c : RGBAColor)
    (hsx2 : sx * sx = 1) (hsy2 : sy * sy = 1)
    (hdxa : 0 ≤ dxa) (hdya : 0 ≤ dya) :
    ∀ (n : Nat) (x1 y1 err : Int) (img : RGBAImage) (fuel1 fuel2 : Nat),
      sx * (x2 - x1) + sy * (y2 - y1) = (n : Int) →
      0 ≤ sx * (x2 - x1) → sx * (x2 - x1) ≤ dxa →
      0 ≤ sy * (y2 - y1) → sy * (y2 - y1) ≤ dya →
      err = dxa - dya + dya * (sx * (x2 - x1)) - dxa * (sy * (y2 - y1)) →
      n < fuel1 → n < fuel2 →
      bresenhamLoop x2 y2 dxa dya sx sy c fuel1 img x1 y1 err =
        bresenhamLoop x2 y2 dxa dya sx sy c fuel2 img x1 y1 err := by
  intro n
  induction n using Nat.strong_induction_on with
  | _ n ih =>
    intro x1 y1 err img fuel1 fuel2 hn ha0 hadx hb0 hbdy herr hf1 hf2
    cases fuel1 with
    | zero => omega
    | succ f1 =>
      cases fuel2 with
      | zero => omega
      | succ f2 =>
        simp only [bresenhamLoop]
        by_cases hbreak : x1 = x2 ∧ y1 = y2
        · rw [if_pos hbreak, if_pos hbreak]
        · rw [if_neg hbreak, if_neg hbreak]
          set A := sx * (x2 - x1) with hA
          set B := sy * (y2 - y1) with hB
          have hxa : x1 = x2 ↔ A = 0 := by
            constructor
            · intro h
              rw [hA, h]
              ring
            · intro h
              have h2 : (sx * sx) * (x2 - x1) = sx * A := by rw [hA]; ring
              rw [hsx2, one_mul, h, mul_zero] at h2
              omega
          have hyb : y1 = y2 ↔ B = 0 := by
            constructor
            · intro h
              rw [hB, h]
              ring
            · intro h
              have h2 : (sy * sy) * (y2 - y1) = sy * B := by rw [hB]; ring
              rw [hsy2, one_mul, h, mul_zero] at h2
              omega
          have eX : sx * (x2 - (x1 + sx)) = A - 1 := by
            rw [show x2 - (x1 + sx) = x2 - x1 - sx from by ring, mul_sub, hsx2, hA]
          have eY : sy * (y2 - (y1 + sy)) = B - 1 := by
            rw [show y2 - (y1 + sy) = y2 - y1 - sy from by ring, mul_sub, hsy2, hB]
          have hone : 1 ≤ A ∨ 1 ≤ B := by
            by_contra hcon
            push_neg at hcon
            exact hbreak ⟨hxa.mpr (by omega), hyb.mpr (by omega)⟩
          have haX : 2 * err > -dya → 1 ≤ A := by
            intro hcx
            by_contra hcon
            have hA0 : A = 0 := by omega
            have hB1 : 1 ≤ B := by
              rcases hone with h | h
              · omega
              · exact h
            have hmul : dxa * 1 ≤ dxa * B := mul_le_mul_of_nonneg_left hB1 hdxa
            rw [herr, hA0] at hcx
            nlinarith
          have hbY : 2 * err < dxa → 1 ≤ B := by
            intro hcy
            by_contra hcon
            have hB0 : B = 0 := by omega
            have hA1 : 1 ≤ A := by
              rcases hone with h | h
              · exact h
              · omega
            have hmul : dya * 1 ≤ dya * A := mul_le_mul_of_nonneg_left hA1 hdya
            rw [herr, hB0] at hcy
            nlinarith
          by_cases hcx : 2 * err > -dya
          · by_cases hcy : 2 * err < dxa
            · simp only [if_pos hcx, if_pos hcy]
              have hA1 := haX hcx
              have hB1 := hbY hcy
              refine ih (n - 2) (by omega) (x1 + sx) (y1 + sy) (err - dya + dxa)
                _ f1 f2 ?_ ?_ ?_ ?_ ?_ ?_ (by omega) (by omega)
              · rw [eX, eY]; omega
              · rw [eX]; omega
              · rw [eX]; omega
              · rw [eY]; omega
              · rw [eY]; omega
              · rw [eX, eY, herr]; ring
            · simp only [if_pos hcx, if_neg hcy]
              have hA1 := haX hcx
              refine ih (n - 1) (by omega) (x1 + sx) y1 (err - dya)
                _ f1 f2 ?_ ?_ ?_ hb0 hbdy ?_ (by omega) (by omega)
              · rw [eX]; omega
              · rw [eX]; omega
              · rw [eX]; omega
              · rw [eX, herr]; ring
          · by_cases hcy : 2 * err < dxa
            · simp only [if_neg hcx, if_pos hcy]
              have hB1 := hbY hcy
              refine ih (n - 1) (by omega) x1 (y1 + sy) (err + dxa)
                _ f1 f2 ?_ ha0 hadx ?_ ?_ ?_ (by omega) (by omega)
              · rw [eY]; omega
              · rw [eY]; omega
              · rw [eY]; omega
              · rw [eY, herr]; ring
            · exfalso
              push_neg at hcx hcy
              have hdz : dxa ≤ -dya := le_trans hcy hcx
              exact hbreak ⟨hxa.mpr (by omega), hyb.mpr (by omega)⟩

/-- `drawLine`'s fuel `dxa + dya + 1` is sufficient: giving the walk any
additional fuel does not change the result, so the Go loop the walk
models always terminates at its endpoint. -/
theorem drawLine_fuel (img : RGBAImage) (x1 y1 x2 y2 : Int) (c : RGBAColor)
    (extra : Nat) :
    drawLine img x1 y1 x2 y2 c =
      bresenhamLoop x2 y2 |x2 - x1| |y2 - y1| (if x1 > x2 then -1 else 1)
        (if y1 > y2 then -1 else 1) c ((|x2 - x1| + |y2 - y1| + 1).toNat + extra)
        img x1 y1 (|x2 - x1| - |y2 - y1|) := by
  have hAx : (if x1 > x2 then (-1 : Int) else 1) * (x2 - x1) = |x2 - x1| := by
    split
    next h => rw [abs_of_nonpos (by omega)]; ring
    next h => rw [abs_of_nonneg (by omega)]; ring
  have hAy : (if y1 > y2 then (-1 : Int) else 1) * (y2 - y1) = |y2 - y1| := by
    split
    next h => rw [abs_of_nonpos (by omega)]; ring
    next h => rw [abs_of_nonneg (by omega)]; ring
  have hsx2 : (if x1 > x2 then (-1 : Int) else 1) * (if x1 > x2 then (-1 : Int) else 1) = 1 := by
    split <;> norm_num
  have hsy2 : (if y1 > y2 then (-1 : Int) else 1) * (if y1 > y2 then (-1 : Int) else 1) = 1 := by
    split <;> norm_num
  rw [drawLine]
  exact bresenhamLoop_fuel x2 y2 |x2 - x1| |y2 - y1| _ _ c hsx2 hsy2
    (abs_nonneg _) (abs_nonneg _) (|x2 - x1| + |y2 - y1|).toNat x1 y1 _ img _ _
    (by
      rw [hAx, hAy]
      have h1 := abs_nonneg (x2 - x1)
      have h2 := abs_nonneg (y2 - y1)
      omega)
    (by rw [hAx]; exact abs_nonneg _)
    (by rw [hAx])
    (by rw [hAy]; exact abs_nonneg _)
    (by rw [hAy])
    (by rw [hAx, hAy]; ring)
    (by
      have h1 := abs_nonneg (x2 - x1)
      have h2 := abs_nonneg (y2 - y1)
      omega)
    (by
      have h1 := abs_nonneg (x2 - x1)
      have h2 := abs_nonneg (y2 - y1)
      omega)

end Demogif
